import Mathlib

/-!
Shallow embedding of the conversation state machine of `app/app.py`
(AI Concierge Agent).  Python dict fields that may be absent are `Option`s;
an uncaught Python exception (KeyError / IndexError) is modelled by the
turn handler returning `none`.  The external Gemini generator is an oracle
parameter `GenOracle`; global `metrics` is threaded explicitly.  The
persistent memory file writes and the timestamp reads do not influence the
conversation state or the chat history, so they are not part of the model.
-/

/-- One chat message: a role ("user" / "assistant") and its text. -/
structure Msg where
  role : String
  content : String
deriving Repr, DecidableEq

/-- A question slot: `(key, prompt)` exactly as the `(key, text)` tuples in the source. -/
abbrev Slot := String × String

/-- Conversation state: the Python `state` dict.  Missing keys are `none`. -/
structure ConvState where
  stage : String
  lang : Option String := none
  flow : Option String := none
  questions : Option (List Slot) := none
  answers : Option (List (String × String)) := none
  q_index : Option Nat := none
deriving Repr, DecidableEq

/-- Global metrics counters (`concierge_metrics.json`). -/
structure Metrics where
  sessions_created : Nat := 0
  flows_diet : Nat := 0
  flows_shopping : Nat := 0
  flows_travel : Nat := 0
  total_messages : Nat := 0
  gemini_calls : Nat := 0
  error_count : Nat := 0
deriving Repr, DecidableEq

/-- Result of one turn: the grown history, the new state, the new metrics. -/
structure TurnResult where
  history : List Msg
  state : ConvState
  metrics : Metrics
deriving Repr, DecidableEq

/-- Outcome of a call to the external generator: response text, or the
exception message raised by the client library. -/
abbrev GenOracle := String → Except String String

/-- Python `list.insert` / slice assignment `l[i:i] = xs`: insert `xs` at
position `i` (clamped to the length, as in Python). -/
def listInsertAt (l : List Slot) (i : Nat) (xs : List Slot) : List Slot :=
  l.take i ++ xs ++ l.drop i

/-- Python dict assignment `d[k] = v` for a string-keyed dict kept as an
insertion-ordered association list. -/
def dict_set (d : List (String × String)) (k v : String) : List (String × String) :=
  if d.any (fun p => p.1 == k) then d.map (fun p => if p.1 == k then (k, v) else p)
  else d ++ [(k, v)]

/-- Python `sub in s` on character lists: does `needle` occur contiguously
in `hay`?  (The empty needle occurs everywhere, as in Python.) -/
def containsCL : List Char → List Char → Bool
  | hay, needle =>
    if needle.isPrefixOf hay then true
    else match hay with
      | [] => false
      | _ :: t => containsCL t needle

/-- Python `sub in s` on strings (substring containment). -/
def strContains (s sub : String) : Bool := containsCL s.data sub.data

/-- Python `str.lower()` (ASCII case mapping, all the vocabulary involved is ASCII). -/
def py_lower (s : String) : String := ⟨s.data.map Char.toLower⟩

/-- The whitespace set of Python `str.strip()` (ASCII portion). -/
def py_isspace (c : Char) : Bool :=
  c == ' ' || c == '\t' || c == '\n' || c == '\r' || c == '\x0b' || c == '\x0c'

/-- Python `str.strip()`: drop leading and trailing whitespace. -/
def py_strip (s : String) : String :=
  ⟨((s.data.dropWhile py_isspace).reverse.dropWhile py_isspace).reverse⟩

/-- `LANG_CHOICES`: the closed language vocabulary of the source. -/
def LANG_CHOICES : List (String × String) :=
  [("english", "English"), ("hindi", "Hindi"), ("marathi", "Marathi"), ("telugu", "Telugu")]

/-- Dict lookup `LANG_CHOICES[msg]`, `none` when `msg` is not a key. -/
def lang_lookup (k : String) : Option String :=
  (LANG_CHOICES.find? (fun p => p.1 == k)).map (fun p => p.2)

/-- `base_questions_for_flow` from the source: the three flow templates;
any other name falls through to `return []` (with no diagnostic of any kind:
the function contains no logging call and raises nothing). -/
def base_questions_for_flow (flow : String) : List Slot :=
  if flow = "diet" then
    [("age", "Your age?"),
     ("gender", "Male / Female / Other?"),
     ("height_cm", "Height in cm?"),
     ("weight_kg", "Weight in kg?"),
     ("goal", "Goal: Lose / Maintain / Gain?"),
     ("activity", "Activity level (sedentary / light / moderate / active)?"),
     ("diet_type", "What type of diet do you follow? (Vegetarian / Eggetarian / Non-Vegetarian / Vegan)"),
     ("diet_pref", "Any dietary preferences or allergies? (If none, type \x27no\x27)")]
  else if flow = "shopping" then
    [("currency", "Currency? (INR / USD / EUR / GBP / AED / CAD)"),
     ("budget", "Total shopping budget?"),
     ("category", "Type of shopping? (Clothes, Groceries, Electronics, Home, Kids, Gifts)"),
     ("purpose", "Purpose? (Daily / Festival / Travel / Wedding / Gift)"),
     ("members", "How many people are you shopping for?"),
     ("preferences", "Any preferences? (brand/size/style/etc.)"),
     ("have", "Do you already have some items? If yes, list them or type \x27no\x27.")]
  else if flow = "travel" then
    [("currency", "Currency for budget (INR / USD / EUR / GBP / AED / CAD)?"),
     ("budget", "Total travel budget?"),
     ("origin", "Where are you traveling from?"),
     ("members", "How many travelers?"),
     ("country", "Destination country (or \x27not sure\x27)"),
     ("days", "How many days?"),
     ("pref", "Trip type: beach / adventure / city / nature / budget / luxury?")]
  else []

/-- Observable outcome of a catalog lookup: the slot list together with the
diagnostic (log line or exception text) the call emits.  The source function
has no logging statement and no raise on any path, so the diagnostic
component is `none` for every input. -/
def base_questions_for_flow_obs (flow : String) : List Slot × Option String :=
  (base_questions_for_flow flow, none)

/-- Modelled from the spec: the contract that an unknown flow name "must fail
loudly (e.g., return an empty sequence plus a diagnostic)".  Stated only to
compare with `base_questions_for_flow_obs`. -/
def base_questions_spec_contract (flow : String) : List Slot × Option String :=
  if flow = "diet" ∨ flow = "shopping" ∨ flow = "travel" then
    (base_questions_for_flow flow, none)
  else ([], some ("Unknown flow: " ++ flow))

/-- Rendering of the collected answers that is interpolated into the Gemini
prompts (the source uses `json.dumps(answers, indent=2)`; the exact JSON
punctuation has no bearing on any behaviour of the state machine, so the
mapping is rendered as one `key: value` line per entry). -/
def renderAnswers (answers : List (String × String)) : String :=
  String.intercalate "\n" (answers.map (fun p => p.1 ++ ": " ++ p.2))

/-- The `gemini` wrapper: increments the call counter, then either returns
the response text or — on any exception from the client — increments the
error counter and returns an error-tagged string.  It never raises. -/
def gemini (gen : GenOracle) (m : Metrics) (prompt : String) : String × Metrics :=
  let m1 : Metrics := { m with gemini_calls := m.gemini_calls + 1 }
  match gen prompt with
  | Except.ok t => (t, m1)
  | Except.error e => ("⚠️ Gemini Error: " ++ e, { m1 with error_count := m1.error_count + 1 })

/-- The dietitian instruction template of `finalize_diet`. -/
def diet_prompt (answers : List (String × String)) (lang : String) : String :=
  "Respond in " ++ lang ++ ". You are a certified dietitian.\n\nUser Profile:\n" ++
  renderAnswers answers ++ "\n\nIMPORTANT:\n- The user follows this diet type: **" ++
  (((answers.find? (fun p => p.1 == "diet_type")).map (fun p => p.2)).getD "Not specified") ++
  "**\n- Ensure the entire 7-day meal plan strictly follows this diet type."

/-- The shopping-assistant instruction template of `finalize_shopping`. -/
def shopping_prompt (answers : List (String × String)) (lang : String) : String :=
  "Respond in " ++ lang ++ ". You are an advanced shopping assistant.\n\nUser details:\n" ++
  renderAnswers answers

/-- The travel-agent instruction template of `finalize_travel`. -/
def travel_prompt (answers : List (String × String)) (lang : String) : String :=
  "Respond in " ++ lang ++ ". You are an expert travel agent.\n\nUser details:\n" ++
  renderAnswers answers

/-- `finalize_diet`: one Gemini call on the dietitian prompt, then the diet
flow-completion counter is incremented.  (The memory-file writes touch no
conversation state.) -/
def finalize_diet (gen : GenOracle) (m : Metrics) (answers : List (String × String)) (lang : String) : String × Metrics :=
  let rm := gemini gen m (diet_prompt answers lang)
  (rm.1, { rm.2 with flows_diet := rm.2.flows_diet + 1 })

/-- `finalize_shopping`: one Gemini call on the shopping-assistant prompt,
then the shopping flow-completion counter is incremented. -/
def finalize_shopping (gen : GenOracle) (m : Metrics) (answers : List (String × String)) (lang : String) : String × Metrics :=
  let rm := gemini gen m (shopping_prompt answers lang)
  (rm.1, { rm.2 with flows_shopping := rm.2.flows_shopping + 1 })

/-- `finalize_travel`: one Gemini call on the travel-agent prompt, then the
travel flow-completion counter is incremented. -/
def finalize_travel (gen : GenOracle) (m : Metrics) (answers : List (String × String)) (lang : String) : String × Metrics :=
  let rm := gemini gen m (travel_prompt answers lang)
  (rm.1, { rm.2 with flows_travel := rm.2.flows_travel + 1 })

/-- Dynamic follow-up slots for clothing shopping (source lines 396-400). -/
def clothing_slots : List Slot :=
  [("for_whom", "Who is this clothing for? (Men / Women / Kids / Baby)"),
   ("occasion", "Occasion? (Casual / Office / Party / Wedding / Travel)"),
   ("sizes", "Sizes or measurements?")]

/-- Dynamic follow-up slot for grocery shopping (source lines 404-407). -/
def grocery_slots : List Slot :=
  [("frequency", "Grocery frequency (Weekly / Monthly)?")]

/-- The slot inserted when the allergy follow-up fires (source line 385). -/
def allergy_slot : Slot := ("allergy_list", "Please specify your allergies.")

/-- The assistant message emitted when the allergy follow-up fires. -/
def allergy_prompt : String :=
  "Please specify your allergies (e.g., dairy, peanuts, gluten, soy, egg)."

/-- The fixed affirmative phrases of the allergy follow-up (source line 377). -/
def affirmative_answers : List String :=
  ["yes", "y", "allergies", "i have allergies", "i\x27m allergic", "allergy"]

/-- The dynamic follow-up rules of the collecting branch (source lines
374-407), applied after recording an answer and incrementing `q_index`.
`pos` is the incremented index (`idx + 1`).  Returns the updated question
list and whether the diet-allergy early return fires. -/
def apply_followup_rules (flow key message : String) (pos : Nat) (qs : List Slot) : List Slot × Bool :=
  if flow = "diet" ∧ key = "diet_pref" ∧ py_strip (py_lower message) ∈ affirmative_answers then
    (listInsertAt qs pos [allergy_slot], true)
  else if flow = "shopping" ∧ key = "category" then
    let cat := py_lower message
    let qs1 := if strContains cat "cloth" then listInsertAt qs pos clothing_slots else qs
    let qs2 := if strContains cat "grocery" then listInsertAt qs1 pos grocery_slots else qs1
    (qs2, false)
  else (qs, false)

/-- Fixed assistant texts of the handler. -/
def lang_reprompt : String := "Please select a language: English / Hindi / Marathi / Telugu"

def flow_reprompt : String := "Please type: diet / shopping / travel"

def fallback_text : String := "I didn\x27t understand. Please type diet / shopping / travel."

def preparing_text : String := "Preparing your results… please wait."

def lang_menu (l : String) : String :=
  "Language set to **" ++ l ++ "**.\n\nHow can I help you today?\n• Diet Plan\n• Shopping Help\n• Travel Planning\n\nType: **diet**, **shopping**, or **travel**"

def next_help_text (lang : String) : String :=
  "What else can I help with in " ++ lang ++ "? (diet / shopping / travel)"

/-- Language-selection branch (source lines 317-336). -/
def handle_language (message : String) (history : List Msg) (st : ConvState) (m : Metrics) : Option TurnResult :=
  let msg := py_strip (py_lower message)
  match lang_lookup msg with
  | some l =>
    some ⟨history ++ [Msg.mk "assistant" (lang_menu l)],
          { st with lang := some l, stage := "choose_flow" }, m⟩
  | none => some ⟨history ++ [Msg.mk "assistant" lang_reprompt], st, m⟩

/-- Flow-selection branch (source lines 341-360).  Indexing `questions[0]`
on an empty list is a fault (`none`). -/
def handle_flow (message : String) (history : List Msg) (st : ConvState) (m : Metrics) : Option TurnResult :=
  let msg := py_strip (py_lower message)
  if msg = "diet" ∨ msg = "shopping" ∨ msg = "travel" then
    let qs := base_questions_for_flow msg
    let m1 : Metrics := { m with sessions_created := m.sessions_created + 1 }
    match qs[0]? with
    | none => none
    | some q0 =>
      some ⟨history ++ [Msg.mk "assistant" q0.2],
            { st with flow := some msg, questions := some qs, answers := some [],
                      q_index := some 0, stage := "collecting" }, m1⟩
  else some ⟨history ++ [Msg.mk "assistant" flow_reprompt], st, m⟩

/-- Collecting branch (source lines 365-439).  A missing dict key or an
out-of-range index is a fault (`none`). -/
def handle_collecting (gen : GenOracle) (message : String) (history : List Msg) (st : ConvState) (m : Metrics) : Option TurnResult :=
  match st.q_index, st.questions, st.answers, st.flow with
  | some idx, some qs, some ans, some flow =>
    match qs[idx]? with
    | none => none
    | some slot =>
      let ans1 := dict_set ans slot.1 (py_strip message)
      let idx1 := idx + 1
      let rules := apply_followup_rules flow slot.1 message idx1 qs
      if rules.2 then
        some ⟨history ++ [Msg.mk "assistant" allergy_prompt],
              { st with answers := some ans1, q_index := some idx1, questions := some rules.1 }, m⟩
      else
        match rules.1[idx1]? with
        | some nextSlot =>
          some ⟨history ++ [Msg.mk "assistant" nextSlot.2],
                { st with answers := some ans1, q_index := some idx1, questions := some rules.1 }, m⟩
        | none =>
          match st.lang with
          | none => none
          | some lang =>
            let fin :=
              if flow = "diet" then finalize_diet gen m ans1 lang
              else if flow = "shopping" then finalize_shopping gen m ans1 lang
              else finalize_travel gen m ans1 lang
            some ⟨history ++ [Msg.mk "assistant" preparing_text, Msg.mk "assistant" fin.1,
                              Msg.mk "assistant" (next_help_text lang)],
                  { stage := "choose_flow", lang := some lang }, fin.2⟩
  | _, _, _, _ => none

/-- The per-message metrics update at the top of the handler. -/
def bump_total (m : Metrics) : Metrics := { m with total_messages := m.total_messages + 1 }

/-- `chat_handler` (source lines 298-447): one user turn.  Appends the user
message, dispatches on the stage, falls through to the generic fallback. -/
def chat_handler (gen : GenOracle) (message : String) (history : List Msg) (st : ConvState) (m : Metrics) : Option TurnResult :=
  let m1 := bump_total m
  let h1 := history ++ [Msg.mk "user" message]
  if st.stage = "choose_language" then handle_language message h1 st m1
  else if st.stage = "choose_flow" then handle_flow message h1 st m1
  else if st.stage = "collecting" then handle_collecting gen message h1 st m1
  else some ⟨h1 ++ [Msg.mk "assistant" fallback_text], st, m1⟩

/-- The initial state of a session (`{"stage": "choose_language"}`). -/
def initState : ConvState := { stage := "choose_language" }

/-! ### Observation helpers and shared fixtures -/

/-- Stage of the post-turn state, when the turn returned normally. -/
def resultStage (o : Option TurnResult) : Option String := o.map (fun r => r.state.stage)

/-- Post-turn state, when the turn returned normally. -/
def resultState (o : Option TurnResult) : Option ConvState := o.map (fun r => r.state)

/-- Post-turn metrics, when the turn returned normally. -/
def resultMetrics (o : Option TurnResult) : Option Metrics := o.map (fun r => r.metrics)

/-- Post-turn history, when the turn returned normally. -/
def resultHistory (o : Option TurnResult) : Option (List Msg) := o.map (fun r => r.history)

/-- Post-turn question queue (when present). -/
def resultQueue (o : Option TurnResult) : Option (List Slot) := o.bind (fun r => r.state.questions)

/-- Post-turn cursor (when present). -/
def resultQIndex (o : Option TurnResult) : Option Nat := o.bind (fun r => r.state.q_index)

/-- Total number of completed flows recorded in the metrics. -/
def flowsTotal (m : Metrics) : Nat := m.flows_diet + m.flows_shopping + m.flows_travel

/-- Oracle standing for a generator call that succeeds. -/
def genOk : GenOracle := fun _ => Except.ok "RESULT"

/-- Oracle standing for a generator call that raises. -/
def genFail : GenOracle := fun _ => Except.error "boom"

/-- Fresh metrics (all counters zero). -/
def m0 : Metrics := {}

/-- A diet conversation positioned at the last base slot (`diet_pref`, index 7 of 8). -/
def stDiet7 : ConvState :=
  { stage := "collecting", lang := some "English", flow := some "diet",
    questions := some (base_questions_for_flow "diet"),
    answers := some [("age", "30")], q_index := some 7 }

/-- A shopping conversation positioned at the `category` slot (index 2 of 7). -/
def stShop2 : ConvState :=
  { stage := "collecting", lang := some "English", flow := some "shopping",
    questions := some (base_questions_for_flow "shopping"),
    answers := some [("currency", "INR"), ("budget", "5000")], q_index := some 2 }

/-- A collecting state whose question list is empty (the defensive case of the spec). -/
def stEmptyQ : ConvState :=
  { stage := "collecting", lang := some "English", flow := some "diet",
    questions := some [], answers := some [], q_index := some 0 }

/-! ### Dispatch lemmas for the stage branches -/

theorem chat_handler_eq_language (gen : GenOracle) (msg : String) (hist : List Msg)
    (st : ConvState) (m : Metrics) (h : st.stage = "choose_language") :
    chat_handler gen msg hist st m
      = handle_language msg (hist ++ [Msg.mk "user" msg]) st (bump_total m) := by
  simp [chat_handler, h]

theorem chat_handler_eq_flow (gen : GenOracle) (msg : String) (hist : List Msg)
    (st : ConvState) (m : Metrics) (h : st.stage = "choose_flow") :
    chat_handler gen msg hist st m
      = handle_flow msg (hist ++ [Msg.mk "user" msg]) st (bump_total m) := by
  simp [chat_handler, h]

theorem chat_handler_eq_collecting (gen : GenOracle) (msg : String) (hist : List Msg)
    (st : ConvState) (m : Metrics) (h : st.stage = "collecting") :
    chat_handler gen msg hist st m
      = handle_collecting gen msg (hist ++ [Msg.mk "user" msg]) st (bump_total m) := by
  simp [chat_handler, h]

/-! ### Metrics bookkeeping of the finalizers -/

theorem gemini_metrics_fields (gen : GenOracle) (m : Metrics) (p : String) :
    (gemini gen m p).2.gemini_calls = m.gemini_calls + 1 ∧
    (gemini gen m p).2.flows_diet = m.flows_diet ∧
    (gemini gen m p).2.flows_shopping = m.flows_shopping ∧
    (gemini gen m p).2.flows_travel = m.flows_travel ∧
    (gemini gen m p).2.total_messages = m.total_messages := by
  unfold gemini
  cases gen p <;> simp

/-- The metrics produced by the finalizer chosen for `flow`: exactly one
generator call and exactly one flow-completion increment. -/
theorem finalize_metrics (gen : GenOracle) (m : Metrics) (ans : List (String × String))
    (lang flow : String) :
    let fin := if flow = "diet" then finalize_diet gen m ans lang
               else if flow = "shopping" then finalize_shopping gen m ans lang
               else finalize_travel gen m ans lang
    fin.2.gemini_calls = m.gemini_calls + 1 ∧ flowsTotal fin.2 = flowsTotal m + 1 ∧
    fin.2.total_messages = m.total_messages := by
  by_cases h1 : flow = "diet"
  · obtain ⟨ha, hb, hc, hd, he⟩ := gemini_metrics_fields gen m (diet_prompt ans lang)
    simp [h1, finalize_diet, flowsTotal, ha, hb, hc, hd, he]
    omega
  · by_cases h2 : flow = "shopping"
    · obtain ⟨ha, hb, hc, hd, he⟩ := gemini_metrics_fields gen m (shopping_prompt ans lang)
      simp [h1, h2, finalize_shopping, flowsTotal, ha, hb, hc, hd, he]
      omega
    · obtain ⟨ha, hb, hc, hd, he⟩ := gemini_metrics_fields gen m (travel_prompt ans lang)
      simp [h1, h2, finalize_travel, flowsTotal, ha, hb, hc, hd, he]
      omega

/-! ### Queue-splicing lemmas -/

theorem listInsertAt_length (l : List Slot) (i : Nat) (xs : List Slot) (h : i ≤ l.length) :
    (listInsertAt l i xs).length = l.length + xs.length := by
  simp only [listInsertAt, List.length_append, List.length_take, List.length_drop]
  omega

theorem listInsertAt_get_at (l : List Slot) (i : Nat) (x : Slot) (xs : List Slot) (h : i ≤ l.length) :
    (listInsertAt l i (x :: xs))[i]? = some x := by
  unfold listInsertAt
  rw [List.append_assoc, List.getElem?_append_right (by simp only [List.length_take]; omega)]
  simp [List.length_take, Nat.min_eq_left h]

/-- On the shopping `category` slot, an answer containing "cloth" but not
"grocery" splices in exactly the three clothing slots. -/
theorem rules_shopping_cloth (message : String) (pos : Nat) (qs : List Slot)
    (hc : strContains (py_lower message) "cloth" = true)
    (hg : strContains (py_lower message) "grocery" = false) :
    apply_followup_rules "shopping" "category" message pos qs
      = (listInsertAt qs pos clothing_slots, false) := by
  simp [apply_followup_rules, hc, hg]

/-- On the diet `diet_pref` slot, an affirmative answer splices in the
allergy slot and signals the early return. -/
theorem rules_diet_affirmative (message : String) (pos : Nat) (qs : List Slot)
    (hy : py_strip (py_lower message) ∈ affirmative_answers) :
    apply_followup_rules "diet" "diet_pref" message pos qs
      = (listInsertAt qs pos [allergy_slot], true) := by
  simp [apply_followup_rules, hy]

/-- On the diet `diet_pref` slot, an answer outside the fixed affirmative
set fires nothing: the queue is untouched. -/
theorem rules_diet_negative (message : String) (pos : Nat) (qs : List Slot)
    (hn : py_strip (py_lower message) ∉ affirmative_answers) :
    apply_followup_rules "diet" "diet_pref" message pos qs = (qs, false) := by
  simp [apply_followup_rules, hn]

/-! ### C2 — shopping clothing follow-up -/

/-- C2 (amended): during shopping collection, an answer to `category` whose
lowercase form contains "cloth" and does not contain "grocery" splices in
exactly the three slots `for_whom`, `occasion`, `sizes` immediately after
the category position, preserving the order of the remaining slots; a
7-slot queue grows to 10.  (The original claim, without the "grocery"
exclusion, is refuted by `c2_counterexample`.) -/
theorem c2_cloth_insert (gen : GenOracle) (message : String) (hist : List Msg) (m : Metrics)
    (st : ConvState) (qs : List Slot) (ans : List (String × String)) (i : Nat) (p : String)
    (hstage : st.stage = "collecting") (hflow : st.flow = some "shopping")
    (hqs : st.questions = some qs) (hidx : st.q_index = some i) (hans : st.answers = some ans)
    (hslot : qs[i]? = some ("category", p))
    (hcloth : strContains (py_lower message) "cloth" = true)
    (hgro : strContains (py_lower message) "grocery" = false) :
    resultStage (chat_handler gen message hist st m) = some "collecting" ∧
    resultQIndex (chat_handler gen message hist st m) = some (i + 1) ∧
    resultQueue (chat_handler gen message hist st m) =
      some (qs.take (i + 1) ++ clothing_slots ++ qs.drop (i + 1)) ∧
    (resultQueue (chat_handler gen message hist st m)).map List.length = some (qs.length + 3) ∧
    (qs.length = 7 → (resultQueue (chat_handler gen message hist st m)).map List.length = some 10) := by
  have hi : i < qs.length := by
    by_contra hc
    rw [List.getElem?_eq_none (by omega)] at hslot
    exact Option.noConfusion hslot
  obtain ⟨stage, lang, flow, questions, answers, qi⟩ := st
  simp only at hstage hflow hqs hidx hans
  subst hstage hflow hqs hidx hans
  rw [chat_handler_eq_collecting _ _ _ _ _ rfl]
  simp only [handle_collecting, hslot]
  rw [rules_shopping_cloth message (i + 1) qs hcloth hgro]
  have hget : (listInsertAt qs (i + 1) clothing_slots)[i + 1]? =
      some ("for_whom", "Who is this clothing for? (Men / Women / Kids / Baby)") := by
    show (listInsertAt qs (i + 1) (("for_whom", "Who is this clothing for? (Men / Women / Kids / Baby)") ::
      [("occasion", "Occasion? (Casual / Office / Party / Wedding / Travel)"),
       ("sizes", "Sizes or measurements?")]))[i + 1]? = _
    exact listInsertAt_get_at qs (i + 1) _ _ (by omega)
  simp only [hget]
  have hlen : (listInsertAt qs (i + 1) clothing_slots).length = qs.length + 3 := by
    rw [listInsertAt_length qs (i + 1) clothing_slots (by omega)]
    rfl
  refine ⟨rfl, ?_, ?_, ?_, ?_⟩
  · simp [resultQIndex]
  · simp [resultQueue, listInsertAt]
  · simp [resultQueue]
    exact hlen
  · intro h7
    simp [resultQueue]
    omega

/-- C2 counterexample: the `category` answer "cloth and grocery" contains
"cloth", yet four slots (`frequency` then the three clothing slots) are
inserted and the 7-slot queue grows to 11, not 10 — refuting "exactly the
three slots for_whom, occasion, sizes are inserted". -/
theorem c2_counterexample :
    (resultQueue (chat_handler genOk "cloth and grocery" [] stShop2 m0)).map
        (fun l => l.map Prod.fst)
      = some ["currency", "budget", "category", "frequency", "for_whom", "occasion", "sizes",
              "purpose", "members", "preferences", "have"] ∧
    (resultQueue (chat_handler genOk "cloth and grocery" [] stShop2 m0)).map List.length
      = some 11 := by
  decide

/-- C2 witness: the amended theorem applied to Scenario C ("Clothes and
shoes" at the `category` slot of the 7-slot shopping queue). -/
theorem c2_witness :
    resultStage (chat_handler genOk "Clothes and shoes" [] stShop2 m0) = some "collecting" ∧
    resultQIndex (chat_handler genOk "Clothes and shoes" [] stShop2 m0) = some (2 + 1) ∧
    resultQueue (chat_handler genOk "Clothes and shoes" [] stShop2 m0) =
      some ((base_questions_for_flow "shopping").take (2 + 1) ++ clothing_slots ++
            (base_questions_for_flow "shopping").drop (2 + 1)) ∧
    (resultQueue (chat_handler genOk "Clothes and shoes" [] stShop2 m0)).map List.length
      = some ((base_questions_for_flow "shopping").length + 3) ∧
    ((base_questions_for_flow "shopping").length = 7 →
      (resultQueue (chat_handler genOk "Clothes and shoes" [] stShop2 m0)).map List.length
        = some 10) :=
  c2_cloth_insert genOk "Clothes and shoes" [] m0 stShop2 (base_questions_for_flow "shopping")
    [("currency", "INR"), ("budget", "5000")] 2
    "Type of shopping? (Clothes, Groceries, Electronics, Home, Kids, Gifts)"
    rfl rfl rfl rfl rfl (by decide) (by decide) (by decide)

/-! ### C3 — diet allergy follow-up -/

/-- C3: during diet collection, an answer to `diet_pref` whose lowercased,
stripped form is in the fixed affirmative set splices exactly one
`allergy_list` slot immediately after the current position, the cursor ends
the turn pointing at that inserted slot, and the 8-slot queue grows to 9. -/
theorem c3_allergy_insert (gen : GenOracle) (message : String) (hist : List Msg) (m : Metrics)
    (st : ConvState) (qs : List Slot) (ans : List (String × String)) (i : Nat) (p : String)
    (hstage : st.stage = "collecting") (hflow : st.flow = some "diet")
    (hqs : st.questions = some qs) (hidx : st.q_index = some i) (hans : st.answers = some ans)
    (hslot : qs[i]? = some ("diet_pref", p))
    (hyes : py_strip (py_lower message) ∈ affirmative_answers)
    (hlen : qs.length = 8) :
    resultStage (chat_handler gen message hist st m) = some "collecting" ∧
    resultQIndex (chat_handler gen message hist st m) = some (i + 1) ∧
    resultQueue (chat_handler gen message hist st m) = some (listInsertAt qs (i + 1) [allergy_slot]) ∧
    (resultQueue (chat_handler gen message hist st m)).map List.length = some 9 ∧
    (resultQueue (chat_handler gen message hist st m)).bind (fun l => l[i + 1]?) = some allergy_slot := by
  have hi : i < qs.length := by
    by_contra hc
    rw [List.getElem?_eq_none (by omega)] at hslot
    exact Option.noConfusion hslot
  obtain ⟨stage, lang, flow, questions, answers, qi⟩ := st
  simp only at hstage hflow hqs hidx hans
  subst hstage hflow hqs hidx hans
  rw [chat_handler_eq_collecting _ _ _ _ _ rfl]
  simp only [handle_collecting, hslot]
  rw [rules_diet_affirmative message (i + 1) qs hyes]
  refine ⟨rfl, ?_, ?_, ?_, ?_⟩
  · simp [resultQIndex]
  · simp [resultQueue]
  · have h9 : (listInsertAt qs (i + 1) [allergy_slot]).length = 9 := by
      rw [listInsertAt_length qs (i + 1) [allergy_slot] (by omega)]
      simp [hlen]
    simp [resultQueue, h9]
  · have hg : (listInsertAt qs (i + 1) [allergy_slot])[i + 1]? = some allergy_slot :=
      listInsertAt_get_at qs (i + 1) allergy_slot [] (by omega)
    simp [resultQueue, hg]

/-- C3 witness: Scenario D, answering "yes" at the `diet_pref` slot (index 7)
of the 8-slot diet queue. -/
theorem c3_witness :
    resultStage (chat_handler genOk "yes" [] stDiet7 m0) = some "collecting" ∧
    resultQIndex (chat_handler genOk "yes" [] stDiet7 m0) = some (7 + 1) ∧
    resultQueue (chat_handler genOk "yes" [] stDiet7 m0) =
      some (listInsertAt (base_questions_for_flow "diet") (7 + 1) [allergy_slot]) ∧
    (resultQueue (chat_handler genOk "yes" [] stDiet7 m0)).map List.length = some 9 ∧
    (resultQueue (chat_handler genOk "yes" [] stDiet7 m0)).bind (fun l => l[7 + 1]?) = some allergy_slot :=
  c3_allergy_insert genOk "yes" [] m0 stDiet7 (base_questions_for_flow "diet")
    [("age", "30")] 7 "Any dietary preferences or allergies? (If none, type \x27no\x27)"
    rfl rfl rfl rfl rfl (by decide) (by decide) (by decide)

/-! ### C10 — strict matching of the affirmative set -/

/-- C10: an answer to `diet_pref` whose lowercased, stripped form is not
exactly one of the six affirmative phrases (for example "yes, peanuts")
fires no insertion: the rule application leaves the queue untouched, and
the turn either advances within the unchanged 8-slot queue or, when
`diet_pref` was the last slot, completes the flow. -/
theorem c10_diet_pref_strict (gen : GenOracle) (message : String) (hist : List Msg) (m : Metrics)
    (st : ConvState) (qs : List Slot) (ans : List (String × String)) (i : Nat) (p l : String)
    (hstage : st.stage = "collecting") (hflow : st.flow = some "diet")
    (hqs : st.questions = some qs) (hidx : st.q_index = some i) (hans : st.answers = some ans)
    (hlang : st.lang = some l)
    (hslot : qs[i]? = some ("diet_pref", p))
    (hno : py_strip (py_lower message) ∉ affirmative_answers)
    (hlen : qs.length = 8) :
    apply_followup_rules "diet" "diet_pref" message (i + 1) qs = (qs, false) ∧
    (i + 1 < 8 →
      resultStage (chat_handler gen message hist st m) = some "collecting" ∧
      resultQueue (chat_handler gen message hist st m) = some qs ∧
      resultQIndex (chat_handler gen message hist st m) = some (i + 1)) ∧
    (i + 1 = 8 →
      resultState (chat_handler gen message hist st m)
        = some { stage := "choose_flow", lang := some l }) := by
  have hi : i < qs.length := by
    by_contra hc
    rw [List.getElem?_eq_none (by omega)] at hslot
    exact Option.noConfusion hslot
  refine ⟨rules_diet_negative message (i + 1) qs hno, ?_, ?_⟩
  · intro hlt
    obtain ⟨stage, lang, flow, questions, answers, qi⟩ := st
    simp only at hstage hflow hqs hidx hans hlang
    subst hstage hflow hqs hidx hans
    rw [chat_handler_eq_collecting _ _ _ _ _ rfl]
    simp only [handle_collecting, hslot]
    rw [rules_diet_negative message (i + 1) qs hno]
    have hnext : qs[i + 1]? = some qs[i + 1] := List.getElem?_eq_getElem (by omega)
    simp only [hnext]
    exact ⟨rfl, by simp [resultQueue], by simp [resultQIndex]⟩
  · intro heq
    obtain ⟨stage, lang, flow, questions, answers, qi⟩ := st
    simp only at hstage hflow hqs hidx hans hlang
    subst hstage hflow hqs hidx hans hlang
    rw [chat_handler_eq_collecting _ _ _ _ _ rfl]
    simp only [handle_collecting, hslot]
    rw [rules_diet_negative message (i + 1) qs hno]
    have hnone : qs[i + 1]? = none := List.getElem?_eq_none (by omega)
    simp only [hnone]
    simp [resultState]

/-- C10 witness: answering "yes, peanuts" at the last diet slot fires no
insertion and completes the flow. -/
theorem c10_witness :
    apply_followup_rules "diet" "diet_pref" "yes, peanuts" (7 + 1) (base_questions_for_flow "diet")
      = (base_questions_for_flow "diet", false) ∧
    (7 + 1 < 8 →
      resultStage (chat_handler genOk "yes, peanuts" [] stDiet7 m0) = some "collecting" ∧
      resultQueue (chat_handler genOk "yes, peanuts" [] stDiet7 m0) = some (base_questions_for_flow "diet") ∧
      resultQIndex (chat_handler genOk "yes, peanuts" [] stDiet7 m0) = some (7 + 1)) ∧
    (7 + 1 = 8 →
      resultState (chat_handler genOk "yes, peanuts" [] stDiet7 m0)
        = some { stage := "choose_flow", lang := some "English" }) :=
  c10_diet_pref_strict genOk "yes, peanuts" [] m0 stDiet7 (base_questions_for_flow "diet")
    [("age", "30")] 7 "Any dietary preferences or allergies? (If none, type \x27no\x27)" "English"
    rfl rfl rfl rfl rfl rfl (by decide) (by decide) (by decide)

/-! ### C1 — completion of the last pending slot -/

/-- C1 (amended): in stage `collecting` with the cursor on the last pending
slot, a turn whose answer fires no dynamic follow-up rule triggers exactly
one dispatch — one generator call and one flow-completion increment — and
resets the state to stage `choose_flow` with the pre-turn language and no
flow, answers, queue or cursor.  (The original claim, without the
no-follow-up proviso, is refuted by `c1_counterexample`: an affirmative
`diet_pref` answer on the last diet slot inserts a question instead of
dispatching.) -/
theorem c1_last_slot_dispatch (gen : GenOracle) (message : String) (hist : List Msg) (m : Metrics)
    (st : ConvState) (qs : List Slot) (ans : List (String × String)) (i : Nat)
    (k p fl l : String)
    (hstage : st.stage = "collecting") (hflow : st.flow = some fl) (hlang : st.lang = some l)
    (hqs : st.questions = some qs) (hidx : st.q_index = some i) (hans : st.answers = some ans)
    (hslot : qs[i]? = some (k, p))
    (hlast : i + 1 = qs.length)
    (hrule : apply_followup_rules fl k message (i + 1) qs = (qs, false)) :
    resultState (chat_handler gen message hist st m)
      = some { stage := "choose_flow", lang := some l } ∧
    (resultMetrics (chat_handler gen message hist st m)).map Metrics.gemini_calls
      = some (m.gemini_calls + 1) ∧
    (resultMetrics (chat_handler gen message hist st m)).map flowsTotal
      = some (flowsTotal m + 1) := by
  obtain ⟨stage, lang, flow, questions, answers, qi⟩ := st
  simp only at hstage hflow hqs hidx hans hlang
  subst hstage hflow hqs hidx hans hlang
  rw [chat_handler_eq_collecting _ _ _ _ _ rfl]
  simp only [handle_collecting, hslot]
  rw [hrule]
  have hnone : qs[i + 1]? = none := List.getElem?_eq_none (by omega)
  simp only [hnone]
  obtain ⟨ha, hb, hc⟩ :=
    finalize_metrics gen (bump_total m) (dict_set ans k (py_strip message)) l fl
  refine ⟨by simp [resultState], ?_, ?_⟩
  · simp [resultMetrics]
    exact ha
  · simp [resultMetrics]
    rw [hb]
    simp [flowsTotal, bump_total]

/-- C1 counterexample: with the cursor on the last pending diet slot
(`diet_pref`, index 7 of 8), the answer "yes" yields a post-turn state still
in stage `collecting` and no dispatch (no generator call, no completed
flow), refuting the unconditional claim. -/
theorem c1_counterexample :
    stDiet7.q_index = some 7 ∧ (stDiet7.questions).map List.length = some 8 ∧
    resultStage (chat_handler genOk "yes" [] stDiet7 m0) = some "collecting" ∧
    (resultMetrics (chat_handler genOk "yes" [] stDiet7 m0)).map Metrics.gemini_calls = some 0 ∧
    (resultMetrics (chat_handler genOk "yes" [] stDiet7 m0)).map flowsTotal = some 0 := by
  decide

/-- C1 witness: answering "no" on the last diet slot dispatches once and
resets to `choose_flow` keeping the language. -/
theorem c1_witness :
    resultState (chat_handler genOk "no" [] stDiet7 m0)
      = some { stage := "choose_flow", lang := some "English" } ∧
    (resultMetrics (chat_handler genOk "no" [] stDiet7 m0)).map Metrics.gemini_calls
      = some (m0.gemini_calls + 1) ∧
    (resultMetrics (chat_handler genOk "no" [] stDiet7 m0)).map flowsTotal
      = some (flowsTotal m0 + 1) :=
  c1_last_slot_dispatch genOk "no" [] m0 stDiet7 (base_questions_for_flow "diet")
    [("age", "30")] 7 "diet_pref" "Any dietary preferences or allergies? (If none, type \x27no\x27)"
    "diet" "English" rfl rfl rfl rfl rfl rfl (by decide) (by decide) (by decide)

/-! ### C4 — unmatched input re-prompts without state change -/

/-- C4: at `choose_language`, input whose lowercased stripped form is not in
the language vocabulary — and at `choose_flow`, input not naming one of the
three flows — leaves the whole conversation state unchanged and appends
exactly one assistant re-prompt after the user message. -/
theorem c4_unmatched_reprompt (gen : GenOracle) (message : String) (hist : List Msg)
    (m : Metrics) (st : ConvState)
    (h : (st.stage = "choose_language" ∧ lang_lookup (py_strip (py_lower message)) = none) ∨
         (st.stage = "choose_flow" ∧ py_strip (py_lower message) ≠ "diet" ∧
          py_strip (py_lower message) ≠ "shopping" ∧ py_strip (py_lower message) ≠ "travel")) :
    resultState (chat_handler gen message hist st m) = some st ∧
    resultHistory (chat_handler gen message hist st m) =
      some (hist ++ [Msg.mk "user" message,
        Msg.mk "assistant" (if st.stage = "choose_language" then lang_reprompt else flow_reprompt)]) := by
  rcases h with ⟨hstage, hl⟩ | ⟨hstage, h1, h2, h3⟩
  · rw [chat_handler_eq_language _ _ _ _ _ hstage]
    simp [handle_language, hl, resultState, resultHistory, hstage]
  · rw [chat_handler_eq_flow _ _ _ _ _ hstage]
    simp [handle_flow, h1, h2, h3, resultState, resultHistory, hstage]

/-- C4 witness: "bonjour" at the initial language prompt re-prompts and
leaves the state untouched. -/
theorem c4_witness :
    resultState (chat_handler genOk "bonjour" [] initState m0) = some initState ∧
    resultHistory (chat_handler genOk "bonjour" [] initState m0) =
      some ([] ++ [Msg.mk "user" "bonjour",
        Msg.mk "assistant" (if initState.stage = "choose_language" then lang_reprompt else flow_reprompt)]) :=
  c4_unmatched_reprompt genOk "bonjour" [] m0 initState (Or.inl ⟨rfl, by decide⟩)

/-! ### C5 — catalog lookup of an unknown flow -/

/-- C5 (amended): for a flow name outside the three known flows, the catalog
lookup silently returns the empty slot sequence and emits no diagnostic at
all.  (The original claim — that a diagnostic accompanies the empty result —
is refuted by `c5_counterexample`.) -/
theorem c5_unknown_flow_silent (f : String)
    (h1 : f ≠ "diet") (h2 : f ≠ "shopping") (h3 : f ≠ "travel") :
    base_questions_for_flow_obs f = ([], none) := by
  simp [base_questions_for_flow_obs, base_questions_for_flow, h1, h2, h3]

/-- C5 counterexample: the unknown flow name "groceries" produces the empty
slot list with no diagnostic, while the spec contract demands a diagnostic —
the lookup fails silently, not loudly. -/
theorem c5_counterexample :
    base_questions_for_flow_obs "groceries" = ([], none) ∧
    base_questions_spec_contract "groceries" ≠ base_questions_for_flow_obs "groceries" := by
  decide

/-- C5 witness: the amended theorem applied to the flow name "unknown". -/
theorem c5_witness : base_questions_for_flow_obs "unknown" = ([], none) :=
  c5_unknown_flow_silent "unknown" (by decide) (by decide) (by decide)

/-! ### C6 — empty question list -/

/-- C6 (amended): if a collecting state carries an empty question list, the
turn faults on the out-of-range index (no result is produced) instead of
triggering completion; such states are unreachable because the three
catalog flows load 8, 7 and 7 slots. -/
theorem c6_empty_queue_faults (gen : GenOracle) (message : String) (hist : List Msg)
    (st : ConvState) (m : Metrics)
    (h1 : st.stage = "collecting") (h2 : st.questions = some []) :
    chat_handler gen message hist st m = none ∧
    (base_questions_for_flow "diet").length = 8 ∧
    (base_questions_for_flow "shopping").length = 7 ∧
    (base_questions_for_flow "travel").length = 7 := by
  refine ⟨?_, by decide, by decide, by decide⟩
  rw [chat_handler_eq_collecting _ _ _ _ _ h1]
  obtain ⟨stage, lang, flow, questions, answers, qi⟩ := st
  simp only at h1 h2
  subst h1 h2
  cases qi <;> cases answers <;> cases flow <;> simp [handle_collecting]

/-- C6 counterexample: on a collecting state with an empty question list the
turn produces no result at all (the index access faults) — completion does
not trigger. -/
theorem c6_counterexample : chat_handler genOk "hi" [] stEmptyQ m0 = none := by
  decide

/-- C6 witness: the amended theorem applied to the concrete empty-queue
state. -/
theorem c6_witness :
    chat_handler genFail "anything" [] stEmptyQ m0 = none ∧
    (base_questions_for_flow "diet").length = 8 ∧
    (base_questions_for_flow "shopping").length = 7 ∧
    (base_questions_for_flow "travel").length = 7 :=
  c6_empty_queue_faults genFail "anything" [] stEmptyQ m0 rfl rfl

/-! ### C7 — generator failure on a completing turn -/

/-- Whatever flow is being finalized, a failing generator yields the
error-tagged text and bumps the error counter. -/
theorem finalize_fail (gen : GenOracle) (e : String) (m : Metrics)
    (ans : List (String × String)) (l fl : String)
    (hfail : ∀ prompt, gen prompt = Except.error e) :
    let fin := if fl = "diet" then finalize_diet gen m ans l
               else if fl = "shopping" then finalize_shopping gen m ans l
               else finalize_travel gen m ans l
    fin.1 = "⚠️ Gemini Error: " ++ e ∧ fin.2.error_count = m.error_count + 1 := by
  by_cases hd : fl = "diet" <;> by_cases hs : fl = "shopping" <;>
    simp [hd, hs, finalize_diet, finalize_shopping, finalize_travel, gemini, hfail]

/-- C7: on a flow-completing turn whose generator call fails, the turn still
emits the error-tagged result message (between the "Preparing" notice and
the next-flow menu), the error counter is bumped, and the state resets to
`choose_flow` retaining the language — exactly as on success. -/
theorem c7_generator_failure_reset (gen : GenOracle) (e message : String) (hist : List Msg)
    (m : Metrics) (st : ConvState) (qs : List Slot) (ans : List (String × String)) (i : Nat)
    (k p fl l : String)
    (hstage : st.stage = "collecting") (hflow : st.flow = some fl) (hlang : st.lang = some l)
    (hqs : st.questions = some qs) (hidx : st.q_index = some i) (hans : st.answers = some ans)
    (hslot : qs[i]? = some (k, p))
    (hlast : i + 1 = qs.length)
    (hrule : apply_followup_rules fl k message (i + 1) qs = (qs, false))
    (hfail : ∀ prompt, gen prompt = Except.error e) :
    resultState (chat_handler gen message hist st m)
      = some { stage := "choose_flow", lang := some l } ∧
    resultHistory (chat_handler gen message hist st m) =
      some (hist ++ [Msg.mk "user" message, Msg.mk "assistant" preparing_text,
        Msg.mk "assistant" ("⚠️ Gemini Error: " ++ e), Msg.mk "assistant" (next_help_text l)]) ∧
    (resultMetrics (chat_handler gen message hist st m)).map Metrics.error_count
      = some (m.error_count + 1) := by
  obtain ⟨stage, lang, flow, questions, answers, qi⟩ := st
  simp only at hstage hflow hqs hidx hans hlang
  subst hstage hflow hqs hidx hans hlang
  rw [chat_handler_eq_collecting _ _ _ _ _ rfl]
  simp only [handle_collecting, hslot]
  rw [hrule]
  have hnone : qs[i + 1]? = none := List.getElem?_eq_none (by omega)
  simp only [hnone]
  obtain ⟨ha, hb⟩ :=
    finalize_fail gen e (bump_total m) (dict_set ans k (py_strip message)) l fl hfail
  refine ⟨by simp [resultState], ?_, ?_⟩
  · simp [resultHistory]
    rw [ha]
  · simp [resultMetrics]
    rw [hb]
    simp [bump_total]

/-- C7 witness: a failing generator ("boom") on the completing diet turn. -/
theorem c7_witness :
    resultState (chat_handler genFail "none" [] stDiet7 m0)
      = some { stage := "choose_flow", lang := some "English" } ∧
    resultHistory (chat_handler genFail "none" [] stDiet7 m0) =
      some ([] ++ [Msg.mk "user" "none", Msg.mk "assistant" preparing_text,
        Msg.mk "assistant" ("⚠️ Gemini Error: " ++ "boom"),
        Msg.mk "assistant" (next_help_text "English")]) ∧
    (resultMetrics (chat_handler genFail "none" [] stDiet7 m0)).map Metrics.error_count
      = some (m0.error_count + 1) :=
  c7_generator_failure_reset genFail "boom" "none" [] m0 stDiet7 (base_questions_for_flow "diet")
    [("age", "30")] 7 "diet_pref" "Any dietary preferences or allergies? (If none, type \x27no\x27)"
    "diet" "English" rfl rfl rfl rfl rfl rfl (by decide) (by decide) (by decide)
    (fun _ => rfl)

/-! ### Reachability invariant machinery -/

/-- When the allergy early return fires, the queue grew by exactly one slot. -/
theorem rules_true_length (fl k msg : String) (pos : Nat) (qs : List Slot) (hpos : pos ≤ qs.length)
    (h : (apply_followup_rules fl k msg pos qs).2 = true) :
    (apply_followup_rules fl k msg pos qs).1.length = qs.length + 1 := by
  unfold apply_followup_rules at h ⊢
  split_ifs at h ⊢ with h1 h2
  show (listInsertAt qs pos [allergy_slot]).length = qs.length + 1
  rw [listInsertAt_length _ _ _ hpos]
  rfl

/-- One collecting turn, under the conditions the invariant provides:
either the stage stays `collecting` with the cursor advanced to `i + 1`
inside a queue it still points into, or the flow completes and the state
resets to `choose_flow` keeping the language. -/
theorem handle_collecting_cases (gen : GenOracle) (message : String) (h1 : List Msg) (m : Metrics)
    (st : ConvState) (qs : List Slot) (ans : List (String × String)) (i : Nat) (fl l : String)
    (hqs : st.questions = some qs) (hidx : st.q_index = some i) (hans : st.answers = some ans)
    (hflow : st.flow = some fl) (hlang : st.lang = some l) (hi : i < qs.length) :
    (∃ qs2 msgOut,
        handle_collecting gen message h1 st m =
          some ⟨h1 ++ [Msg.mk "assistant" msgOut],
                { st with answers := some (dict_set ans (qs.get ⟨i, hi⟩).1 (py_strip message)),
                          q_index := some (i + 1), questions := some qs2 }, m⟩ ∧
        i + 1 < qs2.length) ∨
    (∃ res m2,
        handle_collecting gen message h1 st m =
          some ⟨h1 ++ [Msg.mk "assistant" preparing_text, Msg.mk "assistant" res,
                       Msg.mk "assistant" (next_help_text l)],
                { stage := "choose_flow", lang := some l }, m2⟩) := by
  obtain ⟨stage, lang, flow, questions, answers, qi⟩ := st
  simp only at hqs hidx hans hflow hlang
  subst hqs hidx hans hflow hlang
  have hget : qs[i]? = some (qs.get ⟨i, hi⟩) := by
    rw [List.getElem?_eq_getElem hi]
    simp [List.get_eq_getElem]
  simp only [handle_collecting, hget]
  cases htrig : (apply_followup_rules fl (qs.get ⟨i, hi⟩).1 message (i + 1) qs).2
  · simp only [htrig, Bool.false_eq_true, if_false]
    cases hnext : (apply_followup_rules fl (qs.get ⟨i, hi⟩).1 message (i + 1) qs).1[i + 1]?
    case none =>
      right
      simp only [hnext]
      exact ⟨_, _, rfl⟩
    case some nextSlot =>
      left
      refine ⟨(apply_followup_rules fl (qs.get ⟨i, hi⟩).1 message (i + 1) qs).1, nextSlot.2, ?_, ?_⟩
      · simp only [hnext]
      · have := List.getElem?_eq_some.mp hnext
        exact this.1
  · left
    refine ⟨(apply_followup_rules fl (qs.get ⟨i, hi⟩).1 message (i + 1) qs).1, allergy_prompt, ?_, ?_⟩
    · simp only [htrig, if_true]
    · rw [rules_true_length fl (qs.get ⟨i, hi⟩).1 message (i + 1) qs (by omega) htrig]
      omega

/-- Invariant satisfied by every reachable conversation state: the stage is
one of the three live stages; a language is set from `choose_flow` on; the
cursor exists exactly in `collecting`, where all collection fields are
present and the cursor strictly precedes the end of the queue. -/
def StateInv (st : ConvState) : Prop :=
  (st.stage = "choose_language" ∨ st.stage = "choose_flow" ∨ st.stage = "collecting") ∧
  (st.stage = "choose_flow" → st.lang.isSome = true) ∧
  (st.stage ≠ "collecting" → st.q_index = none) ∧
  (st.stage = "collecting" →
    st.lang.isSome = true ∧ st.flow.isSome = true ∧ st.answers.isSome = true ∧
    st.questions.isSome = true ∧ st.q_index.isSome = true ∧
    st.q_index.getD 0 < (st.questions.getD []).length)

instance (st : ConvState) : Decidable (StateInv st) := by
  unfold StateInv
  infer_instance

/-- Does a turn outcome reply to the user?  True when the turn returned
normally, kept the history prefix, recorded the user message, and appended
at least one assistant message after it. -/
def assistantReplies (hist : List Msg) (msg : String) (o : Option TurnResult) : Bool :=
  match o with
  | none => false
  | some r =>
      decide (r.history.take (hist.length + 1) = hist ++ [Msg.mk "user" msg]) &&
      decide (1 ≤ (r.history.drop (hist.length + 1)).length) &&
      (r.history.drop (hist.length + 1)).all (fun x => x.role == "assistant")

theorem assistantReplies_append (hist : List Msg) (msg : String) (st : ConvState) (m : Metrics)
    (tail : List Msg) (hne : 1 ≤ tail.length)
    (hall : tail.all (fun x => x.role == "assistant") = true) :
    assistantReplies hist msg (some ⟨hist ++ [Msg.mk "user" msg] ++ tail, st, m⟩) = true := by
  have hlen : (hist ++ [Msg.mk "user" msg]).length = hist.length + 1 := by simp
  simp only [assistantReplies]
  rw [List.take_left' hlen, List.drop_left' hlen]
  simp [hall, hne]

/-- Everything one turn guarantees from an invariant state: normal return,
a reply, invariant preservation, and the cursor discipline. -/
def TurnOk (gen : GenOracle) (msg : String) (hist : List Msg) (m : Metrics) (st : ConvState) : Prop :=
  ∃ r, chat_handler gen msg hist st m = some r ∧ StateInv r.state ∧
    assistantReplies hist msg (some r) = true ∧
    r.state.q_index.getD 0 ≤ (r.state.questions.getD []).length ∧
    (st.stage = "collecting" →
      r.state.q_index = none ∨ r.state.q_index = some (st.q_index.getD 0 + 1)) ∧
    (r.state.q_index = some 0 → st.stage = "choose_flow" ∧
      (py_strip (py_lower msg) = "diet" ∨ py_strip (py_lower msg) = "shopping" ∨
       py_strip (py_lower msg) = "travel"))

theorem turn_language (gen : GenOracle) (msg : String) (hist : List Msg) (m : Metrics)
    (st : ConvState) (hInv : StateInv st) (hs : st.stage = "choose_language") :
    TurnOk gen msg hist m st := by
  obtain ⟨hstages, hlangCF, hqiN, hcoll⟩ := hInv
  have hqi : st.q_index = none := hqiN (by rw [hs]; decide)
  rw [TurnOk]
  cases hl : lang_lookup (py_strip (py_lower msg))
  case none =>
    refine ⟨⟨hist ++ [Msg.mk "user" msg] ++ [Msg.mk "assistant" lang_reprompt], st, bump_total m⟩,
      ?_, ⟨Or.inl hs, hlangCF, hqiN, hcoll⟩, ?_, ?_, ?_, ?_⟩
    · rw [chat_handler_eq_language _ _ _ _ _ hs]
      simp [handle_language, hl]
    · exact assistantReplies_append hist msg st (bump_total m) _ (by simp) (by simp)
    · simp [hqi]
    · intro hc
      exact absurd (hs.symm.trans hc) (by decide)
    · intro h0
      exact Option.noConfusion (hqi ▸ h0)
  case some L =>
    refine ⟨⟨hist ++ [Msg.mk "user" msg] ++ [Msg.mk "assistant" (lang_menu L)],
      { st with lang := some L, stage := "choose_flow" }, bump_total m⟩,
      ?_, ⟨Or.inr (Or.inl rfl), fun _ => rfl, fun _ => hqi,
        fun hc => absurd hc (show ¬("choose_flow" : String) = "collecting" by decide)⟩,
      ?_, ?_, ?_, ?_⟩
    · rw [chat_handler_eq_language _ _ _ _ _ hs]
      simp [handle_language, hl]
    · exact assistantReplies_append hist msg _ (bump_total m) _ (by simp) (by simp)
    · show st.q_index.getD 0 ≤ (st.questions.getD []).length
      simp [hqi]
    · intro hc
      exact absurd (hs.symm.trans hc) (by decide)
    · intro h0
      exact Option.noConfusion (hqi ▸ h0)

theorem turn_flow_selected (gen : GenOracle) (msg : String) (hist : List Msg) (m : Metrics)
    (st : ConvState) (fname q0key q0prompt : String) (rest : List Slot)
    (hs : st.stage = "choose_flow") (hlg : st.lang.isSome = true)
    (hname : fname = "diet" ∨ fname = "shopping" ∨ fname = "travel")
    (h1 : py_strip (py_lower msg) = fname)
    (hbase : base_questions_for_flow fname = (q0key, q0prompt) :: rest) :
    TurnOk gen msg hist m st := by
  rw [TurnOk]
  refine ⟨⟨hist ++ [Msg.mk "user" msg] ++ [Msg.mk "assistant" q0prompt],
    { st with flow := some fname, questions := some ((q0key, q0prompt) :: rest),
              answers := some [], q_index := some 0, stage := "collecting" },
    { bump_total m with sessions_created := (bump_total m).sessions_created + 1 }⟩,
    ?_, ?_, ?_, ?_, ?_, ?_⟩
  · rw [chat_handler_eq_flow _ _ _ _ _ hs]
    simp only [handle_flow, h1]
    rw [if_pos hname]
    simp only [hbase, List.getElem?_cons_zero]
  · exact ⟨Or.inr (Or.inr rfl),
      fun hcf => absurd hcf (show ¬("collecting" : String) = "choose_flow" by decide),
      fun hne => absurd rfl hne,
      fun _ => ⟨hlg, rfl, rfl, rfl, rfl, by simp⟩⟩
  · exact assistantReplies_append hist msg _ _ _ (by simp) (by simp)
  · show (0 : Nat) ≤ ((q0key, q0prompt) :: rest).length
    simp
  · intro hc
    exact absurd (hs.symm.trans hc) (by decide)
  · intro _
    exact ⟨hs, by rw [h1]; exact hname⟩

theorem turn_flow (gen : GenOracle) (msg : String) (hist : List Msg) (m : Metrics)
    (st : ConvState) (hInv : StateInv st) (hs : st.stage = "choose_flow") :
    TurnOk gen msg hist m st := by
  obtain ⟨hstages, hlangCF, hqiN, hcoll⟩ := hInv
  have hqi : st.q_index = none := hqiN (by rw [hs]; decide)
  have hlg : st.lang.isSome = true := hlangCF hs
  by_cases hv : py_strip (py_lower msg) = "diet" ∨ py_strip (py_lower msg) = "shopping" ∨
      py_strip (py_lower msg) = "travel"
  · rcases hv with h1 | h1 | h1
    · exact turn_flow_selected gen msg hist m st "diet" "age" "Your age?" _
        hs hlg (Or.inl rfl) h1 rfl
    · exact turn_flow_selected gen msg hist m st "shopping" "currency"
        "Currency? (INR / USD / EUR / GBP / AED / CAD)" _
        hs hlg (Or.inr (Or.inl rfl)) h1 rfl
    · exact turn_flow_selected gen msg hist m st "travel" "currency"
        "Currency for budget (INR / USD / EUR / GBP / AED / CAD)?" _
        hs hlg (Or.inr (Or.inr rfl)) h1 rfl
  · push_neg at hv
    obtain ⟨hv1, hv2, hv3⟩ := hv
    rw [TurnOk]
    refine ⟨⟨hist ++ [Msg.mk "user" msg] ++ [Msg.mk "assistant" flow_reprompt], st, bump_total m⟩,
      ?_, ⟨Or.inr (Or.inl hs), hlangCF, hqiN, hcoll⟩, ?_, ?_, ?_, ?_⟩
    · rw [chat_handler_eq_flow _ _ _ _ _ hs]
      simp [handle_flow, hv1, hv2, hv3]
    · exact assistantReplies_append hist msg st (bump_total m) _ (by simp) (by simp)
    · simp [hqi]
    · intro hc
      exact absurd (hs.symm.trans hc) (by decide)
    · intro h0
      exact Option.noConfusion (hqi ▸ h0)

theorem turn_collecting (gen : GenOracle) (msg : String) (hist : List Msg) (m : Metrics)
    (st : ConvState) (hInv : StateInv st) (hs : st.stage = "collecting") :
    TurnOk gen msg hist m st := by
  obtain ⟨hstages, hlangCF, hqiN, hcoll⟩ := hInv
  obtain ⟨hlgS, hflS, hansS, hqsS, hqiS, hlt⟩ := hcoll hs
  rcases Option.isSome_iff_exists.mp hlgS with ⟨l, hl⟩
  rcases Option.isSome_iff_exists.mp hflS with ⟨fl, hfl⟩
  rcases Option.isSome_iff_exists.mp hansS with ⟨ans, hans⟩
  rcases Option.isSome_iff_exists.mp hqsS with ⟨qs, hqs⟩
  rcases Option.isSome_iff_exists.mp hqiS with ⟨i, hqi⟩
  rw [hqi, hqs] at hlt
  simp only [Option.getD_some] at hlt
  rw [TurnOk]
  rcases handle_collecting_cases gen msg (hist ++ [Msg.mk "user" msg]) (bump_total m)
      st qs ans i fl l hqs hqi hans hfl hl hlt with
    ⟨qs2, msgOut, heq, hlt2⟩ | ⟨res, m2, heq⟩
  · refine ⟨⟨hist ++ [Msg.mk "user" msg] ++ [Msg.mk "assistant" msgOut],
      { st with answers := some (dict_set ans (qs.get ⟨i, hlt⟩).1 (py_strip msg)),
                q_index := some (i + 1), questions := some qs2 },
      bump_total m⟩, ?_, ?_, ?_, ?_, ?_, ?_⟩
    · rw [chat_handler_eq_collecting _ _ _ _ _ hs]
      exact heq
    · refine ⟨Or.inr (Or.inr hs), ?_, ?_, ?_⟩
      · intro hcf
        exact absurd (hs.symm.trans hcf) (by decide)
      · intro hne
        exact absurd hs hne
      · intro _
        exact ⟨hlgS, hflS, rfl, rfl, rfl, by simpa using hlt2⟩
    · exact assistantReplies_append hist msg _ (bump_total m) _ (by simp) (by simp)
    · show i + 1 ≤ qs2.length
      omega
    · intro _
      right
      rw [hqi]
      rfl
    · intro h0
      have h01 : i + 1 = 0 := Option.some.inj h0
      omega
  · refine ⟨⟨hist ++ [Msg.mk "user" msg] ++ [Msg.mk "assistant" preparing_text,
        Msg.mk "assistant" res, Msg.mk "assistant" (next_help_text l)],
      { stage := "choose_flow", lang := some l }, m2⟩, ?_, ?_, ?_, ?_, ?_, ?_⟩
    · rw [chat_handler_eq_collecting _ _ _ _ _ hs]
      exact heq
    · exact ⟨Or.inr (Or.inl rfl), fun _ => rfl, fun _ => rfl,
        fun hc => absurd hc (show ¬("choose_flow" : String) = "collecting" by decide)⟩
    · exact assistantReplies_append hist msg _ m2 _ (by simp) (by simp)
    · show (0 : Nat) ≤ ([] : List Slot).length
      simp
    · intro _
      left
      rfl
    · intro h0
      exact Option.noConfusion h0

/-- Combined master lemma: every invariant state gives a well-behaved turn. -/
theorem turn_master (gen : GenOracle) (msg : String) (hist : List Msg) (m : Metrics)
    (st : ConvState) (hInv : StateInv st) : TurnOk gen msg hist m st := by
  rcases hInv.1 with hs | hs | hs
  · exact turn_language gen msg hist m st hInv hs
  · exact turn_flow gen msg hist m st hInv hs
  · exact turn_collecting gen msg hist m st hInv hs

/-- Conversation states reachable from a fresh session through any sequence
of turns (with any generator behaviour, history and metrics). -/
inductive Reachable : ConvState → Prop
  | init : Reachable initState
  | step (gen : GenOracle) (msg : String) (hist : List Msg) (m : Metrics)
      (st : ConvState) (r : TurnResult) :
      Reachable st → chat_handler gen msg hist st m = some r → Reachable r.state

theorem reachable_stateInv (st : ConvState) (h : Reachable st) : StateInv st := by
  induction h with
  | init => decide
  | step gen msg hist m st1 r hre heq ih =>
    obtain ⟨r2, heq2, hinv2, _⟩ := turn_master gen msg hist m st1 ih
    rw [heq] at heq2
    obtain rfl := Option.some.inj heq2
    exact hinv2

/-! ### C8 — every turn replies and returns normally -/

/-- C8: from every reachable state, any user message produces a normal
return (no fault) whose history extends the old one with the user message
followed by at least one assistant message — never a silent drop. -/
theorem c8_always_replies (st : ConvState) (hreach : Reachable st)
    (gen : GenOracle) (msg : String) (hist : List Msg) (m : Metrics) :
    assistantReplies hist msg (chat_handler gen msg hist st m) = true := by
  obtain ⟨r, heq, _, hrep, _⟩ := turn_master gen msg hist m st (reachable_stateInv st hreach)
  rw [heq]
  exact hrep

/-- C8 witness: the theorem applied to the initial state and "hello". -/
theorem c8_witness :
    assistantReplies [] "hello" (chat_handler genOk "hello" [] initState m0) = true :=
  c8_always_replies initState Reachable.init genOk "hello" [] m0

/-! ### C9 — cursor discipline -/

/-- C9: one turn from an invariant state keeps `0 ≤ cursor ≤ len(queue)`
(`0 ≤` is trivial for `Nat`), moves the cursor of a collecting turn only
forward — to `i + 1` or to absent on the completion reset — and produces
cursor 0 only on a fresh flow selection from stage `choose_flow`; by
induction along `Reachable` this gives the non-decreasing discipline over
every sequence of turns within a flow instance. -/
theorem c9_cursor_discipline (gen : GenOracle) (msg : String) (hist : List Msg) (m : Metrics)
    (st : ConvState) (r : TurnResult) (hInv : StateInv st)
    (h : chat_handler gen msg hist st m = some r) :
    r.state.q_index.getD 0 ≤ (r.state.questions.getD []).length ∧
    (st.stage = "collecting" →
      r.state.q_index = none ∨ r.state.q_index = some (st.q_index.getD 0 + 1)) ∧
    (r.state.q_index = some 0 → st.stage = "choose_flow" ∧
      (py_strip (py_lower msg) = "diet" ∨ py_strip (py_lower msg) = "shopping" ∨
       py_strip (py_lower msg) = "travel")) := by
  obtain ⟨r2, heq2, _, _, hle, hmono, hzero⟩ := turn_master gen msg hist m st hInv
  rw [h] at heq2
  obtain rfl := Option.some.inj heq2
  exact ⟨hle, hmono, hzero⟩

/-- The turn result of selecting English at a fresh session, used to witness
the cursor-discipline theorem. -/
def rC9 : TurnResult :=
  ⟨[Msg.mk "user" "english", Msg.mk "assistant" (lang_menu "English")],
   { stage := "choose_flow", lang := some "English" }, bump_total m0⟩

/-- C9 witness: the theorem applied to the turn that selects English. -/
theorem c9_witness :
    rC9.state.q_index.getD 0 ≤ (rC9.state.questions.getD []).length ∧
    (initState.stage = "collecting" →
      rC9.state.q_index = none ∨ rC9.state.q_index = some (initState.q_index.getD 0 + 1)) ∧
    (rC9.state.q_index = some 0 → initState.stage = "choose_flow" ∧
      (py_strip (py_lower "english") = "diet" ∨ py_strip (py_lower "english") = "shopping" ∨
       py_strip (py_lower "english") = "travel")) :=
  c9_cursor_discipline genOk "english" [] m0 initState rC9 (by decide) (by decide)
